import Mathlib

/-!
Verification of the mobility/handover simulation loops of the mininet-eval
repository (scripts q6, q7, q8, q10, q11).  Python floats are embedded as
rationals (all constants in the scripts are decimal literals and every
operation used is exact field arithmetic, `abs`, `min` and `max`).
-/

namespace MininetEval

/-! ## q10: `topology` — hysteresis handover decision and step loop -/

/-- q10 `check_connection_quality`: `quality = max(0, 100 - (avg_latency / 5) - packet_loss)`. -/
def q10_check_quality (avg_latency packet_loss : ℚ) : ℚ :=
  max 0 (100 - avg_latency / 5 - packet_loss)

/-- q10 handover condition: `if ap1_qual < ap2_qual - 15` (hysteresis of 15). -/
def q10_handover_cond (ap1_qual ap2_qual : ℚ) : Bool :=
  ap1_qual < ap2_qual - 15

/-- q10 decision effect on the current AP (`'s1'` = 1, `'s2'` = 2): when the
condition holds and the current AP is s1, switch to s2; otherwise the current
AP is unchanged (the `else` branch only re-installs the route to AP1). -/
def q10_decide (cur : ℕ) (ap1_qual ap2_qual : ℚ) : ℕ :=
  if q10_handover_cond ap1_qual ap2_qual then
    if cur = 1 then 2 else cur
  else cur

/-! ## q11: `topology` — three-AP distance model and hysteresis decision -/

/-- q11 position: `current_position = step * (140 / total_steps)` with
`total_steps = 30`. -/
def q11_position (step : ℕ) : ℚ := step * (140 / 30)

/-- q11 delay formula, repeated inline for each AP:
`delay = max(5, min(100, 5 + dist))`. -/
def q11_delay_of (dist : ℚ) : ℚ := max 5 (min 100 (5 + dist))

/-- q11 loss formula, repeated inline for each AP:
`loss = max(0, min(20, dist / 5))`. -/
def q11_loss_of (dist : ℚ) : ℚ := max 0 (min 20 (dist / 5))

/-- q11: `dist_to_ap1 = abs(current_position - 20)`. -/
def q11_dist_ap1 (p : ℚ) : ℚ := |p - 20|

/-- q11: `dist_to_ap2 = abs(current_position - 70)`. -/
def q11_dist_ap2 (p : ℚ) : ℚ := |p - 70|

/-- q11: `dist_to_ap3 = abs(current_position - 120)`. -/
def q11_dist_ap3 (p : ℚ) : ℚ := |p - 120|

/-- q11: `delay_ap1 = max(5, min(100, 5 + dist_to_ap1))`. -/
def q11_delay_ap1 (p : ℚ) : ℚ := q11_delay_of (q11_dist_ap1 p)

/-- q11: `loss_ap1 = max(0, min(20, dist_to_ap1 / 5))`. -/
def q11_loss_ap1 (p : ℚ) : ℚ := q11_loss_of (q11_dist_ap1 p)

/-- q11: `delay_ap2 = max(5, min(100, 5 + dist_to_ap2))`. -/
def q11_delay_ap2 (p : ℚ) : ℚ := q11_delay_of (q11_dist_ap2 p)

/-- q11: `loss_ap2 = max(0, min(20, dist_to_ap2 / 5))`. -/
def q11_loss_ap2 (p : ℚ) : ℚ := q11_loss_of (q11_dist_ap2 p)

/-- q11: `delay_ap3 = max(5, min(100, 5 + dist_to_ap3))`. -/
def q11_delay_ap3 (p : ℚ) : ℚ := q11_delay_of (q11_dist_ap3 p)

/-- q11: `loss_ap3 = max(0, min(20, dist_to_ap3 / 5))`. -/
def q11_loss_ap3 (p : ℚ) : ℚ := q11_loss_of (q11_dist_ap3 p)

/-- q11: `ap1_quality = 100 - delay_ap1 - loss_ap1 * 5`. -/
def q11_quality_ap1 (p : ℚ) : ℚ := 100 - q11_delay_ap1 p - q11_loss_ap1 p * 5

/-- q11: `ap2_quality = 100 - delay_ap2 - loss_ap2 * 5`. -/
def q11_quality_ap2 (p : ℚ) : ℚ := 100 - q11_delay_ap2 p - q11_loss_ap2 p * 5

/-- q11: `ap3_quality = 100 - delay_ap3 - loss_ap3 * 5`. -/
def q11_quality_ap3 (p : ℚ) : ℚ := 100 - q11_delay_ap3 p - q11_loss_ap3 p * 5

/-- q11 best-AP selection with hysteresis margin 15: the `if`/`elif` chain
selecting `best_ap` from `current_ap` and the three qualities. -/
def q11_bestAp (current_ap : ℕ) (q1 q2 q3 : ℚ) : ℕ :=
  if current_ap = 1 then
    if q2 > q1 + 15 then 2
    else if q3 > q1 + 15 then 3
    else 1
  else if current_ap = 2 then
    if q1 > q2 + 15 then 1
    else if q3 > q2 + 15 then 3
    else 2
  else if current_ap = 3 then
    if q1 > q3 + 15 then 1
    else if q2 > q3 + 15 then 2
    else 3
  else current_ap

/-- One evaluation of the q11 decision rule at position `p` from current AP
`cur`: returns the new current AP and the handover record appended to
`handover_positions` (`(position, from, to)`) if one occurred. -/
def q11_decide (cur : ℕ) (p : ℚ) : ℕ × Option (ℚ × ℕ × ℕ) :=
  let best := q11_bestAp cur (q11_quality_ap1 p) (q11_quality_ap2 p) (q11_quality_ap3 p)
  if best ≠ cur then (best, some (p, cur, best)) else (best, none)

/-- The current AP after `s` steps of the q11 run (`current_ap = 1` initially;
the loop runs steps `1, ..., 30`). -/
def q11_curAp : ℕ → ℕ
  | 0 => 1
  | s + 1 => (q11_decide (q11_curAp s) (q11_position (s + 1))).1

/-! ## q6: `adjust_link_quality` — linear interpolation model and step loop -/

/-- q6 position: `position = step / step_count` with `step_count = 20`. -/
def q6_position (step : ℕ) : ℚ := step / 20

/-- q6: `ap1_new_bw = max(1, 20 - position * 19)`. -/
def q6_ap1_bw (p : ℚ) : ℚ := max 1 (20 - p * 19)

/-- q6: `ap1_new_delay = 1 + position * 19` (milliseconds). -/
def q6_ap1_delay (p : ℚ) : ℚ := 1 + p * 19

/-- q6: `ap1_new_loss = min(99, position * 50)`. -/
def q6_ap1_loss (p : ℚ) : ℚ := min 99 (p * 50)

/-- q6: `ap2_new_bw = max(1, 1 + position * 19)`. -/
def q6_ap2_bw (p : ℚ) : ℚ := max 1 (1 + p * 19)

/-- q6: `ap2_new_delay = 20 - position * 19` (milliseconds). -/
def q6_ap2_delay (p : ℚ) : ℚ := 20 - p * 19

/-- q6: `ap2_new_loss = min(99, 50 - position * 50)`. -/
def q6_ap2_loss (p : ℚ) : ℚ := min 99 (50 - p * 50)

/-- q6 AP1 quality triple `{bandwidth, delay, loss}` at a position. -/
def q6_ap1_params (p : ℚ) : ℚ × ℚ × ℚ := (q6_ap1_bw p, q6_ap1_delay p, q6_ap1_loss p)

/-- q6 AP2 quality triple `{bandwidth, delay, loss}` at a position. -/
def q6_ap2_params (p : ℚ) : ℚ × ℚ × ℚ := (q6_ap2_bw p, q6_ap2_delay p, q6_ap2_loss p)

/-- q6 handover predicate:
`should_use_ap2 = (ap2_new_bw > ap1_new_bw and ap2_new_loss < ap1_new_loss)`. -/
def q6_should_use_ap2 (p : ℚ) : Bool :=
  q6_ap2_bw p > q6_ap1_bw p ∧ q6_ap2_loss p < q6_ap1_loss p

/-- One step of the q6 loop acting on `(current_link, recorded handover events)`;
an event `(step, from, to)` is written to the results file at each link change. -/
def q6_step (st : ℕ × List (ℕ × ℕ × ℕ)) (step : ℕ) : ℕ × List (ℕ × ℕ × ℕ) :=
  let p := q6_position step
  if q6_should_use_ap2 p ∧ st.1 = 1 then (2, st.2 ++ [(step, 1, 2)])
  else if ¬ q6_should_use_ap2 p ∧ st.1 = 2 then (1, st.2 ++ [(step, 2, 1)])
  else st

/-- The whole q6 movement loop: steps `0, ..., 20` (`range(step_count + 1)`),
starting connected to AP1 (`current_link = 1`). -/
def q6_run : ℕ × List (ℕ × ℕ × ℕ) :=
  (List.range 21).foldl q6_step (1, [])

/-- Quality score of the §4.2 family instantiated with the repository's only
in-source weighting (q11: `quality = 100 - delay - loss * 5`), applied to the
q6 candidates' computed delay and loss. -/
def q6_score_ap1 (p : ℚ) : ℚ := 100 - q6_ap1_delay p - q6_ap1_loss p * 5

/-- Quality score of AP2 under the same weighting. -/
def q6_score_ap2 (p : ℚ) : ℚ := 100 - q6_ap2_delay p - q6_ap2_loss p * 5

/-- Whether the margin-15 condition `score(AP2) - score(AP1) > 15` holds at a
given q6 step. -/
def q6_margin_holds (step : ℕ) : Bool :=
  q6_score_ap2 (q6_position step) - q6_score_ap1 (q6_position step) > 15

/-- The first q6 step (searching `0, ..., 20` in order) at which the margin-15
condition holds. -/
def q6_first_margin_step : Option ℕ :=
  (List.range 21).find? q6_margin_holds

/-! ## q11 step loop with an explicit link-parameter-sink failure flag

The `try`/`except` around the three `tc qdisc replace` invocations catches any
sink failure and only logs it; the step index, the position, the computed
qualities and the decision are all derived before or independently of the sink
call, so they are recorded here per step together with whether the sink call
succeeded. -/

/-- One record of the q11 step loop: the step index, the position computed from
it, the current AP when the step begins, the AP selected by the decision rule,
and whether the link-parameter application (the external sink) succeeded. -/
structure Q11Rec where
  step : ℕ
  position : ℚ
  curAp : ℕ
  bestAp : ℕ
  sinkOk : Bool
  deriving DecidableEq

/-- The q11 step loop, parameterised by which steps the external sink fails at;
`fuel` counts the remaining steps (the script runs steps `1, ..., 30`). -/
def q11_loopAux (fail : ℕ → Bool) : ℕ → ℕ → ℕ → List Q11Rec
  | 0, _, _ => []
  | fuel + 1, step, cur =>
    let p := q11_position step
    let best := (q11_decide cur p).1
    ⟨step, p, cur, best, ! fail step⟩ :: q11_loopAux fail fuel (step + 1) best

/-- The whole q11 run (30 steps starting at step 1 from AP1) under a given
sink-failure pattern. -/
def q11_loop (fail : ℕ → Bool) : List Q11Rec := q11_loopAux fail 30 1 1

/-- Projection of a q11 record that drops the sink outcome. -/
def q11_projNoSink (r : Q11Rec) : ℕ × ℚ × ℕ × ℕ := (r.step, r.position, r.curAp, r.bestAp)

/-- The states `(step, current AP at the start of the step)` at which the q11
run evaluates its decision rule, for each of the 30 steps. -/
def q11_reachable : List (ℕ × ℕ) :=
  (q11_loop (fun _ => false)).map fun r => (r.step, r.curAp)

/-! ## q10 step loop: settle-window break, sink failures, measured qualities -/

/-- The mutable decision state of the q10 loop: the current AP (`'s1'` = 1,
`'s2'` = 2), whether a handover has occurred, and the step it occurred at. -/
structure Q10St where
  cur : ℕ
  occurred : Bool
  hstep : ℕ
  deriving DecidableEq

/-- The q10 decision body: on `ap1_qual < ap2_qual - 15` with current AP s1,
switch to s2 and (only the first time) record the handover step; in every other
case the decision state is unchanged (the `else` branch only re-installs the
route to AP1). -/
def q10_decideFull (st : Q10St) (step : ℕ) (ap1_qual ap2_qual : ℚ) : Q10St :=
  if q10_handover_cond ap1_qual ap2_qual then
    if st.cur = 1 then
      { cur := 2, occurred := true, hstep := if st.occurred then st.hstep else step }
    else st
  else st

/-- The q10 early-termination check, evaluated at the end of a successful step:
`if handover_occurred and step > handover_step + 5: break`. -/
def q10_breakCond (st : Q10St) (step : ℕ) : Bool :=
  st.occurred && decide (st.hstep + 5 < step)

/-- One executed step of the q10 loop: the step index, the link parameters
computed from it before the `try` block (`delay = 5 + step * 5`,
`loss = step`), and the decision state after the step. -/
structure Q10Rec where
  step : ℕ
  delay : ℕ
  loss : ℕ
  post : Q10St
  deriving DecidableEq

/-- The q10 step loop. `fail step = true` means the `try` block raised at that
step: the decision, the data append and the break check are all skipped and the
loop continues. `qual step` is the pair of ping-measured qualities for the two
APs at that step (an external measurement source). -/
def q10_loopAux (fail : ℕ → Bool) (qual : ℕ → ℚ × ℚ) : ℕ → ℕ → Q10St → List Q10Rec
  | 0, _, _ => []
  | fuel + 1, step, st =>
    let delay := 5 + step * 5
    let loss := step
    if fail step then
      ⟨step, delay, loss, st⟩ :: q10_loopAux fail qual fuel (step + 1) st
    else
      let st' := q10_decideFull st step (qual step).1 (qual step).2
      ⟨step, delay, loss, st'⟩ ::
        (if q10_breakCond st' step then [] else q10_loopAux fail qual fuel (step + 1) st')

/-- The whole q10 run: `for step in range(1, 21)` starting on AP1 with no
handover yet. -/
def q10_run (fail : ℕ → Bool) (qual : ℕ → ℚ × ℚ) : List Q10Rec :=
  q10_loopAux fail qual 20 1 ⟨1, false, 0⟩

/-- A measurement oracle that always reports AP1 quality 0 and AP2 quality 100,
so the hysteresis condition holds from the first step on. -/
def q10_constQual : ℕ → ℚ × ℚ := fun _ => (0, 100)

/-! ## q7 and q8: `simulate_mobility` — linear model and positional handover -/

/-- q7/q8: `ap1_bw = max(1, 20 - position * 19)`. -/
def q7_ap1_bw (p : ℚ) : ℚ := max 1 (20 - p * 19)

/-- q7/q8: `ap1_delay = 2 + position * 18` (milliseconds). -/
def q7_ap1_delay (p : ℚ) : ℚ := 2 + p * 18

/-- q7/q8: `ap1_loss = min(80, position * 50)`. -/
def q7_ap1_loss (p : ℚ) : ℚ := min 80 (p * 50)

/-- q7/q8: `ap2_bw = max(1, 1 + position * 19)`. -/
def q7_ap2_bw (p : ℚ) : ℚ := max 1 (1 + p * 19)

/-- q7/q8: `ap2_delay = 20 - position * 18` (milliseconds). -/
def q7_ap2_delay (p : ℚ) : ℚ := 20 - p * 18

/-- q7/q8: `ap2_loss = min(80, 50 - position * 50)`. -/
def q7_ap2_loss (p : ℚ) : ℚ := min 80 (50 - p * 50)

/-- q8 repeats q7's bandwidth formula: `ap1_bw = max(1, 20 - position * 19)`. -/
def q8_ap1_bw (p : ℚ) : ℚ := max 1 (20 - p * 19)

/-- q8 repeats q7's bandwidth formula: `ap2_bw = max(1, 1 + position * 19)`. -/
def q8_ap2_bw (p : ℚ) : ℚ := max 1 (1 + p * 19)

/-- q7/q8 position: `position = step / duration` (the scripts call
`simulate_mobility` with the default `duration = 20`). -/
def q78_position (duration step : ℕ) : ℚ := step / duration

/-- q7/q8 handover condition: `position > 0.5 and ... ap1.IP() in <default
route>`, i.e. the position passed the midpoint and the default route still goes
via AP1 (route 1).  The computed bandwidth/delay/loss values do not occur in
it. -/
def q78_cond (duration step route : ℕ) : Bool :=
  decide (q78_position duration step > 1 / 2) && decide (route = 1)

/-- The q7/q8 step loop reduced to its routing state: at each step, if the
handover condition holds, the default route is switched to AP2 and a
`Handover from AP1 to AP2` event `(step, 1, 2)` is appended to
`handover_events.txt`; otherwise the route is left alone. -/
def q78_loopAux (duration : ℕ) : ℕ → ℕ → ℕ → List (ℕ × ℕ × ℕ)
  | 0, _, _ => []
  | fuel + 1, step, route =>
    if q78_cond duration step route then
      (step, 1, 2) :: q78_loopAux duration fuel (step + 1) 2
    else
      q78_loopAux duration fuel (step + 1) route

/-- All handover events of a q7/q8 run: steps `0, ..., duration`
(`range(duration + 1)`) starting with the default route via AP1. -/
def q78_events (duration : ℕ) : List (ℕ × ℕ × ℕ) := q78_loopAux duration (duration + 1) 0 1

/-- The default route in force when step `s` of a q7/q8 run begins (route 1 =
via AP1 initially; a fired handover switches it to 2). -/
def q78_routeBefore (duration : ℕ) : ℕ → ℕ
  | 0 => 1
  | s + 1 =>
    if q78_cond duration s (q78_routeBefore duration s) then 2
    else q78_routeBefore duration s

/-! ## The clamp operator of the specification -/

/-- `clamp(p, 0, 1)` as the specification writes it: `min(1, max(0, p))`. -/
def clamp01 (p : ℚ) : ℚ := min 1 (max 0 p)

/-! ## Helper lemmas -/

/-- Evaluation of the 30 states `(step, current AP)` at which the q11 run
evaluates its handover decision. -/
theorem q11_reachable_eval : q11_reachable =
    [(1, 1), (2, 1), (3, 1), (4, 1), (5, 1), (6, 1), (7, 1), (8, 1), (9, 1), (10, 1),
     (11, 1), (12, 2), (13, 2), (14, 2), (15, 2), (16, 2), (17, 2), (18, 2), (19, 2), (20, 2),
     (21, 2), (22, 2), (23, 3), (24, 3), (25, 3), (26, 3), (27, 3), (28, 3), (29, 3), (30, 3)] := by
  norm_num [q11_reachable, q11_loop, q11_loopAux, q11_decide, q11_bestAp, q11_position,
    q11_quality_ap1, q11_quality_ap2, q11_quality_ap3, q11_delay_ap1, q11_delay_ap2,
    q11_delay_ap3, q11_loss_ap1, q11_loss_ap2, q11_loss_ap3, q11_delay_of, q11_loss_of,
    q11_dist_ap1, q11_dist_ap2, q11_dist_ap3, abs_of_nonneg, abs_of_nonpos]

/-- The q11 step records with the sink outcome dropped do not depend on which
steps the sink fails at. -/
theorem q11_loopAux_proj_indep (fail : ℕ → Bool) :
    ∀ fuel step cur, (q11_loopAux fail fuel step cur).map q11_projNoSink =
      (q11_loopAux (fun _ => false) fuel step cur).map q11_projNoSink := by
  intro fuel
  induction fuel with
  | zero => intro step cur; rfl
  | succ m ih => intro step cur; simp [q11_loopAux, q11_projNoSink, ih]

/-- The q11 loop always executes exactly its configured number of steps. -/
theorem q11_loopAux_length (fail : ℕ → Bool) :
    ∀ fuel step cur, (q11_loopAux fail fuel step cur).length = fuel := by
  intro fuel
  induction fuel with
  | zero => intro step cur; rfl
  | succ m ih => intro step cur; simp [q11_loopAux, ih]

/-- The q10 loop, under any failure pattern and any measurement oracle,
executes a consecutive block of steps starting at its first step, and each
executed step records the link parameters computed purely from its index. -/
theorem q10_loopAux_steps (fail : ℕ → Bool) (qual : ℕ → ℚ × ℚ) :
    ∀ fuel step st, ∃ n, n ≤ fuel ∧
      (q10_loopAux fail qual fuel step st).map (fun r => (r.step, r.delay, r.loss)) =
        (List.range' step n).map (fun s => (s, 5 + s * 5, s)) := by
  intro fuel
  induction fuel with
  | zero => intro step st; exact ⟨0, le_rfl, by simp [q10_loopAux]⟩
  | succ m ih =>
    intro step st
    by_cases hf : fail step
    · obtain ⟨n, hn, he⟩ := ih (step + 1) st
      refine ⟨n + 1, by omega, ?_⟩
      rw [List.range'_succ]
      simp [q10_loopAux, hf, he]
    · by_cases hb : q10_breakCond (q10_decideFull st step (qual step).1 (qual step).2) step
      · refine ⟨1, by omega, ?_⟩
        simp [q10_loopAux, hf, hb, List.range'_succ]
      · obtain ⟨n, hn, he⟩ := ih (step + 1) (q10_decideFull st step (qual step).1 (qual step).2)
        refine ⟨n + 1, by omega, ?_⟩
        rw [List.range'_succ]
        simp [q10_loopAux, hf, hb, he]

/-- After the q10 handover the decision state never changes again. -/
theorem q10_decideFull_frozen (o : Bool) (h step : ℕ) (q1 q2 : ℚ) :
    q10_decideFull ⟨2, o, h⟩ step q1 q2 = ⟨2, o, h⟩ := by
  unfold q10_decideFull
  split <;> simp

/-- Behaviour of the q10 loop from the post-handover state: it runs consecutive
steps, breaking at the end of the first step exceeding `hstep + 5`. -/
theorem q10_loopAux_frozen (qual : ℕ → ℚ × ℚ) :
    ∀ fuel step h, q10_loopAux (fun _ => false) qual fuel step ⟨2, true, h⟩ =
      (List.range' step (min fuel (max 1 (h + 7 - step)))).map
        (fun s => ⟨s, 5 + s * 5, s, ⟨2, true, h⟩⟩) := by
  intro fuel
  induction fuel with
  | zero => intro step h; simp [q10_loopAux]
  | succ m ih =>
    intro step h
    by_cases hb : h + 5 < step
    · rw [show min (m + 1) (max 1 (h + 7 - step)) = 1 by omega]
      rw [List.range'_succ]
      simp [q10_loopAux, q10_decideFull_frozen, q10_breakCond, hb, List.range']
    · rw [show min (m + 1) (max 1 (h + 7 - step)) =
        min m (max 1 (h + 7 - (step + 1))) + 1 by omega]
      rw [List.range'_succ]
      simp [q10_loopAux, q10_decideFull_frozen, q10_breakCond, hb, ih]

/-- From its initial (no handover yet) state, every record of the q10 loop with
a handover recorded bounds all executed steps by `hstep + 6`, and step
`hstep + 6` is itself executed whenever enough steps remain. -/
theorem q10_loopAux_pre (qual : ℕ → ℚ × ℚ) :
    ∀ fuel step,
      ∀ r ∈ q10_loopAux (fun _ => false) qual fuel step ⟨1, false, 0⟩,
        r.post.occurred = true →
          step ≤ r.post.hstep ∧
          (∀ r2 ∈ q10_loopAux (fun _ => false) qual fuel step ⟨1, false, 0⟩,
            r2.step ≤ r.post.hstep + 6) ∧
          (r.post.hstep + 6 < step + fuel →
            ∃ r2 ∈ q10_loopAux (fun _ => false) qual fuel step ⟨1, false, 0⟩,
              r2.step = r.post.hstep + 6) := by
  intro fuel
  induction fuel with
  | zero => intro step r hr; simp [q10_loopAux] at hr
  | succ m ih =>
    intro step r hr hocc
    by_cases hc : q10_handover_cond (qual step).1 (qual step).2 = true
    · have hst : q10_decideFull ⟨1, false, 0⟩ step (qual step).1 (qual step).2 =
          ⟨2, true, step⟩ := by
        simp [q10_decideFull, hc]
      have hlist : q10_loopAux (fun _ => false) qual (m + 1) step ⟨1, false, 0⟩ =
          ⟨step, 5 + step * 5, step, ⟨2, true, step⟩⟩ ::
            (List.range' (step + 1) (min m 6)).map
              (fun s => ⟨s, 5 + s * 5, s, ⟨2, true, step⟩⟩) := by
        rw [show min m 6 = min m (max 1 (step + 7 - (step + 1))) by omega]
        simp [q10_loopAux, hst, q10_breakCond, q10_loopAux_frozen]
      rw [hlist] at hr ⊢
      have hpost : r.post = ⟨2, true, step⟩ := by
        rcases List.mem_cons.mp hr with h | h
        · rw [h]
        · obtain ⟨s, _, hs⟩ := List.mem_map.mp h
          rw [← hs]
      refine ⟨by rw [hpost], ?_, ?_⟩
      · intro r2 hr2
        rcases List.mem_cons.mp hr2 with h | h
        · rw [h, hpost]; dsimp only; omega
        · obtain ⟨s, hsmem, hs⟩ := List.mem_map.mp h
          have := List.mem_range'_1.mp hsmem
          rw [← hs, hpost]
          dsimp only
          omega
      · intro hlt
        rw [hpost] at hlt ⊢
        dsimp only at hlt ⊢
        have hm : min m 6 = 6 := by omega
        refine ⟨⟨step + 6, 5 + (step + 6) * 5, step + 6, ⟨2, true, step⟩⟩, ?_, rfl⟩
        refine List.mem_cons.mpr (Or.inr (List.mem_map.mpr ⟨step + 6, ?_, rfl⟩))
        rw [hm]
        exact List.mem_range'_1.mpr ⟨by omega, by omega⟩
    · have hst : q10_decideFull ⟨1, false, 0⟩ step (qual step).1 (qual step).2 =
          ⟨1, false, 0⟩ := by
        simp [q10_decideFull, hc]
      have hlist : q10_loopAux (fun _ => false) qual (m + 1) step ⟨1, false, 0⟩ =
          ⟨step, 5 + step * 5, step, ⟨1, false, 0⟩⟩ ::
            q10_loopAux (fun _ => false) qual m (step + 1) ⟨1, false, 0⟩ := by
        simp [q10_loopAux, hst, q10_breakCond]
      rw [hlist] at hr ⊢
      rcases List.mem_cons.mp hr with h | h
      · rw [h] at hocc; simp at hocc
      · obtain ⟨h1, h2, h3⟩ := ih (step + 1) r h hocc
        refine ⟨by omega, ?_, ?_⟩
        · intro r2 hr2
          rcases List.mem_cons.mp hr2 with h4 | h4
          · rw [h4]; dsimp only; omega
          · exact h2 r2 h4
        · intro hlt
          obtain ⟨r2, hr2, he2⟩ := h3 (by omega)
          exact ⟨r2, List.mem_cons.mpr (Or.inr hr2), he2⟩

/-- One unfolding of the q10 step loop. -/
theorem q10_loopAux_succ (fail : ℕ → Bool) (qual : ℕ → ℚ × ℚ) (fuel step : ℕ) (st : Q10St) :
    q10_loopAux fail qual (fuel + 1) step st =
      if fail step then
        ⟨step, 5 + step * 5, step, st⟩ :: q10_loopAux fail qual fuel (step + 1) st
      else
        ⟨step, 5 + step * 5, step, q10_decideFull st step (qual step).1 (qual step).2⟩ ::
          (if q10_breakCond (q10_decideFull st step (qual step).1 (qual step).2) step then []
           else q10_loopAux fail qual fuel (step + 1)
             (q10_decideFull st step (qual step).1 (qual step).2)) := rfl

/-- Evaluation of the q10 run with a sink that never fails and a measurement
oracle reporting AP1 quality 0 and AP2 quality 100 at every step: the handover
occurs at step 1 and the executed steps are 1 through 7. -/
theorem q10_run_constQual_eval :
    q10_run (fun _ => false) q10_constQual =
      [⟨1, 10, 1, ⟨2, true, 1⟩⟩, ⟨2, 15, 2, ⟨2, true, 1⟩⟩, ⟨3, 20, 3, ⟨2, true, 1⟩⟩,
       ⟨4, 25, 4, ⟨2, true, 1⟩⟩, ⟨5, 30, 5, ⟨2, true, 1⟩⟩, ⟨6, 35, 6, ⟨2, true, 1⟩⟩,
       ⟨7, 40, 7, ⟨2, true, 1⟩⟩] := by
  have h2 : q10_loopAux (fun _ => false) q10_constQual 19 2 ⟨2, true, 1⟩ =
      (List.range' 2 6).map (fun s => (⟨s, 5 + s * 5, s, ⟨2, true, 1⟩⟩ : Q10Rec)) := by
    rw [q10_loopAux_frozen]
    norm_num
  show q10_loopAux (fun _ => false) q10_constQual (19 + 1) 1 ⟨1, false, 0⟩ = _
  rw [q10_loopAux_succ]
  norm_num [q10_decideFull, q10_handover_cond, q10_breakCond, q10_constQual, h2, List.range']

/-- The q7/q8 loop emits no event once the route is via AP2. -/
theorem q78_loopAux_route2 (duration : ℕ) :
    ∀ fuel step, q78_loopAux duration fuel step 2 = [] := by
  intro fuel
  induction fuel with
  | zero => intro step; rfl
  | succ m ih => intro step; simp [q78_loopAux, q78_cond, ih]

/-- Once the q7/q8 route is via AP2, it stays via AP2. -/
theorem q78_routeBefore_two (duration : ℕ) :
    ∀ b a, a ≤ b → q78_routeBefore duration a = 2 → q78_routeBefore duration b = 2 := by
  intro b
  induction b with
  | zero => intro a ha h; simpa [Nat.le_zero.mp ha] using h
  | succ n ih =>
    intro a ha h
    rcases Nat.eq_or_lt_of_le ha with he | hlt
    · rw [← he]; exact h
    · have h2 := ih a (by omega) h
      simp [q78_routeBefore, h2, q78_cond]

/-- Membership of a handover event in the q7/q8 loop started at any step with
the route the run actually has there: the event for step `s` is present exactly
when the handover condition holds at `s` with the route in force at `s`. -/
theorem q78_loopAux_mem (duration : ℕ) :
    ∀ fuel start s,
      ((s, 1, 2) ∈ q78_loopAux duration fuel start (q78_routeBefore duration start)) ↔
        (start ≤ s ∧ s < start + fuel ∧
          q78_cond duration s (q78_routeBefore duration s) = true) := by
  intro fuel
  induction fuel with
  | zero => intro start s; simp [q78_loopAux]; omega
  | succ m ih =>
    intro start s
    by_cases hc : q78_cond duration start (q78_routeBefore duration start) = true
    · have hrb : q78_routeBefore duration (start + 1) = 2 := by
        simp [q78_routeBefore, hc]
      simp only [q78_loopAux, hc, if_true, q78_loopAux_route2]
      constructor
      · intro hmem
        rcases List.mem_cons.mp hmem with h | h
        · have hs : s = start := congrArg Prod.fst h
          exact ⟨by omega, by omega, by rw [hs]; exact hc⟩
        · simp at h
      · rintro ⟨h1, h2, h3⟩
        rcases Nat.eq_or_lt_of_le h1 with he | hlt
        · rw [← he]; exact List.mem_cons_self _ _
        · exfalso
          have h4 : q78_routeBefore duration s = 2 :=
            q78_routeBefore_two duration s (start + 1) hlt hrb
          rw [h4] at h3
          simp [q78_cond] at h3
    · have hrb : q78_routeBefore duration (start + 1) = q78_routeBefore duration start := by
        simp [q78_routeBefore, hc]
      have ihs := ih (start + 1) s
      rw [hrb] at ihs
      simp only [q78_loopAux, hc, if_false, Bool.false_eq_true]
      rw [ihs]
      constructor
      · rintro ⟨h1, h2, h3⟩
        exact ⟨by omega, by omega, h3⟩
      · rintro ⟨h1, h2, h3⟩
        rcases Nat.eq_or_lt_of_le h1 with he | hlt
        · exfalso; rw [← he] at h3; exact hc h3
        · exact ⟨by omega, by omega, h3⟩

/-- The q7/q8 event log is empty or a single event. -/
theorem q78_loopAux_shape (duration : ℕ) :
    ∀ fuel step route, q78_loopAux duration fuel step route = [] ∨
      ∃ s, q78_loopAux duration fuel step route = [(s, 1, 2)] := by
  intro fuel
  induction fuel with
  | zero => intro step route; exact Or.inl rfl
  | succ m ih =>
    intro step route
    by_cases hc : q78_cond duration step route = true
    · exact Or.inr ⟨step, by simp [q78_loopAux, hc, q78_loopAux_route2]⟩
    · have h := ih (step + 1) route
      simpa [q78_loopAux, hc] using h

/-- Membership of a handover event in the whole q7/q8 run. -/
theorem q78_events_mem (duration s : ℕ) :
    (s, 1, 2) ∈ q78_events duration ↔
      (s ≤ duration ∧ q78_cond duration s (q78_routeBefore duration s) = true) := by
  have h := q78_loopAux_mem duration (duration + 1) 0 s
  rw [show q78_routeBefore duration 0 = 1 from rfl] at h
  rw [q78_events, h]
  constructor
  · rintro ⟨-, h2, h3⟩
    exact ⟨by omega, h3⟩
  · rintro ⟨h1, h3⟩
    exact ⟨by omega, by omega, h3⟩

/-! ## Claim theorems -/

/-- C1: the hysteresis handover decision with margin 15 is the strict
comparison `score(B) > score(A) + 15`: with the active candidate at score 50, a
challenger at 64 triggers no handover and a challenger at 65.01 does, in both
the q10 condition (`ap1_qual < ap2_qual - 15`) and the q11 rule
(`ap2_quality > ap1_quality + 15`). -/
theorem hysteresis_margin15_strict :
    q10_handover_cond 50 64 = false ∧
    q10_handover_cond 50 (6501 / 100) = true ∧
    q11_bestAp 1 50 64 50 = 1 ∧
    q11_bestAp 1 50 (6501 / 100) 50 = 2 ∧
    (∀ a b : ℚ, q10_handover_cond a b = true ↔ b > a + 15) ∧
    (∀ a b : ℚ, q11_bestAp 1 a b a = 2 ↔ b > a + 15) := by
  refine ⟨by norm_num [q10_handover_cond], by norm_num [q10_handover_cond],
    by norm_num [q11_bestAp], by norm_num [q11_bestAp], ?_, ?_⟩
  · intro a b
    simp only [q10_handover_cond, decide_eq_true_eq]
    constructor <;> intro h <;> linarith
  · intro a b
    by_cases h : b > a + 15
    · simp [q11_bestAp, h]
    · rw [q11_bestAp]
      simp only [if_pos rfl, if_neg h, if_neg (by linarith : ¬ a > a + 15)]
      simp [h]

/-- C2: the q6 two-candidate linear run (20 steps, position = step/20) emits
exactly one handover event, at step 11 (position 0.55), and step 11 is also the
first step at which `score(AP2) - score(AP1) > 15` holds for the repository's
scoring formula `100 - delay - loss * 5`. -/
theorem q6_single_handover_at_margin_step :
    q6_run.2 = [(11, 1, 2)] ∧ q6_first_margin_step = some 11 ∧ q6_position 11 = 11 / 20 := by
  refine ⟨?_, ?_, by norm_num [q6_position]⟩
  · norm_num [q6_run, q6_step, q6_should_use_ap2, q6_position, q6_ap1_bw, q6_ap2_bw,
      q6_ap1_loss, q6_ap2_loss, List.range_succ]
  · norm_num [q6_first_margin_step, q6_margin_holds, q6_score_ap1, q6_score_ap2,
      q6_position, q6_ap1_delay, q6_ap2_delay, q6_ap1_loss, q6_ap2_loss, List.range_succ,
      List.find?]

/-- C3: at every state the q11 simulation actually reaches, evaluating the
decision rule a second time with the same scores keeps the same active AP and
logs no second handover event; the q10 decision is idempotent at every state
whatsoever. -/
theorem handover_decision_idempotent :
    (∀ e ∈ q11_reachable,
      q11_decide (q11_decide e.2 (q11_position e.1)).1 (q11_position e.1) =
        ((q11_decide e.2 (q11_position e.1)).1, none)) ∧
    (∀ cur : ℕ, ∀ ap1_qual ap2_qual : ℚ,
      q10_decide (q10_decide cur ap1_qual ap2_qual) ap1_qual ap2_qual =
        q10_decide cur ap1_qual ap2_qual) := by
  constructor
  · intro e he
    rw [q11_reachable_eval] at he
    fin_cases he <;>
      norm_num [q11_decide, q11_bestAp, q11_position,
        q11_quality_ap1, q11_quality_ap2, q11_quality_ap3, q11_delay_ap1, q11_delay_ap2,
        q11_delay_ap3, q11_loss_ap1, q11_loss_ap2, q11_loss_ap3, q11_delay_of, q11_loss_of,
        q11_dist_ap1, q11_dist_ap2, q11_dist_ap3, abs_of_nonneg, abs_of_nonpos]
  · intro cur q1 q2
    by_cases h : q10_handover_cond q1 q2 <;> by_cases hc : cur = 1 <;>
      simp [q10_decide, h, hc]

/-- Witness for C3: idempotence of the decision at the first reachable state,
step 1 with current AP 1. -/
theorem handover_decision_idempotent_witness :
    q11_decide (q11_decide 1 (q11_position 1)).1 (q11_position 1) =
      ((q11_decide 1 (q11_position 1)).1, none) :=
  handover_decision_idempotent.1 (1, 1) (by rw [q11_reachable_eval]; simp)

/-- C5 counterexample: at position 2 (outside [0, 1], which clamps to 1) the q6
quality model yields a different `{bandwidth, delay, loss}` triple than at the
clamped position: the claim that the model agrees with its clamped evaluation
is false. -/
theorem clamp_claim_false_at_two :
    (1 : ℚ) < 2 ∧ clamp01 2 = 1 ∧ q6_ap1_params 2 ≠ q6_ap1_params (clamp01 2) := by
  refine ⟨by norm_num, by norm_num [clamp01], ?_⟩
  norm_num [clamp01, q6_ap1_params, q6_ap1_bw, q6_ap1_delay, q6_ap1_loss, Prod.ext_iff]

/-- C5 amended: the q6/q7 linear quality models do not clamp the position, so
for positions outside [0, 1] the output differs from the output at
`clamp(p, 0, 1)` (delay is an unclamped linear function, and loss saturates at
its own cap of 99 resp. 80 instead of the in-range extreme 50); only the
individual metrics are clamped (bandwidth floored at 1, loss capped). -/
theorem q6_q7_models_clamp_metrics_not_position :
    q6_ap1_delay 2 = 39 ∧ q6_ap1_delay (clamp01 2) = 20 ∧
    q6_ap1_loss 2 = 99 ∧ q6_ap1_loss (clamp01 2) = 50 ∧
    q7_ap1_delay 2 = 38 ∧ q7_ap1_delay (clamp01 2) = 20 ∧
    (∀ p : ℚ, 1 ≤ q6_ap1_bw p ∧ 1 ≤ q6_ap2_bw p ∧ q6_ap1_loss p ≤ 99 ∧ q6_ap2_loss p ≤ 99) ∧
    (∀ p : ℚ, 1 ≤ q7_ap1_bw p ∧ 1 ≤ q7_ap2_bw p ∧ q7_ap1_loss p ≤ 80 ∧ q7_ap2_loss p ≤ 80) := by
  refine ⟨by norm_num [q6_ap1_delay], by norm_num [q6_ap1_delay, clamp01],
    by norm_num [q6_ap1_loss], by norm_num [q6_ap1_loss, clamp01],
    by norm_num [q7_ap1_delay], by norm_num [q7_ap1_delay, clamp01], ?_, ?_⟩
  · exact fun p => ⟨le_max_left _ _, le_max_left _ _, min_le_left _ _, min_le_left _ _⟩
  · exact fun p => ⟨le_max_left _ _, le_max_left _ _, min_le_left _ _, min_le_left _ _⟩

/-- C6: in the linear interpolation model (q6 and q8), AP1's bandwidth is
non-increasing and AP2's is non-decreasing as position increases within
[0, 1]. -/
theorem linear_model_bandwidth_monotone :
    ∀ p1 p2 : ℚ, 0 ≤ p1 → p1 ≤ p2 → p2 ≤ 1 →
      q6_ap1_bw p2 ≤ q6_ap1_bw p1 ∧ q6_ap2_bw p1 ≤ q6_ap2_bw p2 ∧
      q8_ap1_bw p2 ≤ q8_ap1_bw p1 ∧ q8_ap2_bw p1 ≤ q8_ap2_bw p2 := by
  intro p1 p2 h0 h12 h1
  exact ⟨max_le_max le_rfl (by linarith), max_le_max le_rfl (by linarith),
    max_le_max le_rfl (by linarith), max_le_max le_rfl (by linarith)⟩

/-- Witness for C6: instantiated at the endpoints 0 and 1. -/
theorem linear_model_bandwidth_monotone_witness :
    q6_ap1_bw 1 ≤ q6_ap1_bw 0 ∧ q6_ap2_bw 0 ≤ q6_ap2_bw 1 ∧
    q8_ap1_bw 1 ≤ q8_ap1_bw 0 ∧ q8_ap2_bw 0 ≤ q8_ap2_bw 1 :=
  linear_model_bandwidth_monotone 0 1 (by norm_num) (by norm_num) (by norm_num)

/-- C7: the q11 distance-based model's delay and loss are non-decreasing in the
distance, each candidate's delay lies in [5, 100] ms and loss in [0, 20] % at
every position, and at distance exactly 0 the model yields the maximal-quality
values delay 5 and loss 0. -/
theorem q11_distance_model_monotone_clamped :
    (∀ d1 d2 : ℚ, 0 ≤ d1 → d1 ≤ d2 →
      q11_delay_of d1 ≤ q11_delay_of d2 ∧ q11_loss_of d1 ≤ q11_loss_of d2) ∧
    (∀ p : ℚ,
      5 ≤ q11_delay_ap1 p ∧ q11_delay_ap1 p ≤ 100 ∧ 0 ≤ q11_loss_ap1 p ∧ q11_loss_ap1 p ≤ 20 ∧
      5 ≤ q11_delay_ap2 p ∧ q11_delay_ap2 p ≤ 100 ∧ 0 ≤ q11_loss_ap2 p ∧ q11_loss_ap2 p ≤ 20 ∧
      5 ≤ q11_delay_ap3 p ∧ q11_delay_ap3 p ≤ 100 ∧ 0 ≤ q11_loss_ap3 p ∧ q11_loss_ap3 p ≤ 20) ∧
    q11_delay_of 0 = 5 ∧ q11_loss_of 0 = 0 := by
  refine ⟨?_, ?_, by norm_num [q11_delay_of], by norm_num [q11_loss_of]⟩
  · intro d1 d2 h0 h12
    exact ⟨max_le_max le_rfl (min_le_min le_rfl (by linarith)),
      max_le_max le_rfl (min_le_min le_rfl (by linarith))⟩
  · intro p
    refine ⟨le_max_left _ _, max_le (by norm_num) (min_le_left _ _),
      le_max_left _ _, max_le (by norm_num) (min_le_left _ _),
      le_max_left _ _, max_le (by norm_num) (min_le_left _ _),
      le_max_left _ _, max_le (by norm_num) (min_le_left _ _),
      le_max_left _ _, max_le (by norm_num) (min_le_left _ _),
      le_max_left _ _, max_le (by norm_num) (min_le_left _ _)⟩

/-- Witness for C7: monotonicity instantiated at distances 0 and 1. -/
theorem q11_distance_model_monotone_clamped_witness :
    q11_delay_of 0 ≤ q11_delay_of 1 ∧ q11_loss_of 0 ≤ q11_loss_of 1 :=
  q11_distance_model_monotone_clamped.1 0 1 (by norm_num) (by norm_num)

/-- C9 counterexample: q10's scoring function `check_connection_quality` floors
its score at 0 (`max(0, ...)`): at latency 1000 ms and loss 100 % the raw
formula is negative but the returned score is 0, so the claim that no score is
floored is false for q10. -/
theorem q10_score_floored_not_negative :
    q10_check_quality 1000 100 = 0 ∧ 100 - (1000 : ℚ) / 5 - 100 < 0 := by
  norm_num [q10_check_quality]

/-- C9 amended: q11's score is not clamped below — at step 1 the reachable AP3
parameters give score −100, which enters the hysteresis ranking unchanged (the
step-1 decision compares it directly and keeps AP1); q10's
`check_connection_quality`, by contrast, floors its score at 0 inside the
scoring function. -/
theorem q11_score_negative_unclamped_q10_floored :
    q11_quality_ap3 (q11_position 1) = -100 ∧
    q11_quality_ap3 (q11_position 1) < 0 ∧
    q11_bestAp 1 (q11_quality_ap1 (q11_position 1)) (q11_quality_ap2 (q11_position 1))
      (q11_quality_ap3 (q11_position 1)) = 1 ∧
    (∀ lat pl : ℚ, 0 ≤ q10_check_quality lat pl) := by
  refine ⟨?_, ?_, ?_, fun lat pl => le_max_left _ _⟩ <;>
    norm_num [q11_quality_ap1, q11_quality_ap2, q11_quality_ap3, q11_delay_ap1,
      q11_delay_ap2, q11_delay_ap3, q11_loss_ap1, q11_loss_ap2, q11_loss_ap3,
      q11_delay_of, q11_loss_of, q11_dist_ap1, q11_dist_ap2, q11_dist_ap3, q11_position,
      q11_bestAp, abs_of_nonneg, abs_of_nonpos]

/-- C4: sink failures never abort the step loop or disturb its clock: under any
failure pattern the q11 loop runs all 30 steps and every step's index,
position, current AP and decision are identical to the failure-free run; under
any failure pattern and any measurement oracle the q10 loop executes a
consecutive block of steps whose indices and per-step link parameters
(`delay = 5 + step * 5`, `loss = step`) are exactly the pure function of the
step index, the same as in a run with no failure. -/
theorem step_loop_tolerates_sink_failure :
    (∀ fail : ℕ → Bool,
      (q11_loop fail).map q11_projNoSink = (q11_loop (fun _ => false)).map q11_projNoSink ∧
      (q11_loop fail).length = 30) ∧
    (∀ fail : ℕ → Bool, ∀ qual : ℕ → ℚ × ℚ, ∃ n, n ≤ 20 ∧
      (q10_run fail qual).map (fun r => (r.step, r.delay, r.loss)) =
        (List.range' 1 n).map (fun s => (s, 5 + s * 5, s))) := by
  constructor
  · intro fail
    exact ⟨q11_loopAux_proj_indep fail 30 1 1, q11_loopAux_length fail 30 1 1⟩
  · intro fail qual
    exact q10_loopAux_steps fail qual 20 1 ⟨1, false, 0⟩

/-- C8 counterexample: with a measurement oracle that triggers the handover at
step 1, the q10 run executes steps 1 through 7 — step 7 = h + 6 exceeds
h + 5 = 6, so the claim that no step with index above h + 5 executes is
false. -/
theorem q10_settle_claim_false :
    (q10_run (fun _ => false) q10_constQual).map Q10Rec.step = [1, 2, 3, 4, 5, 6, 7] ∧
    (q10_run (fun _ => false) q10_constQual).head? = some ⟨1, 10, 1, ⟨2, true, 1⟩⟩ ∧
    ¬ (7 : ℕ) ≤ 1 + 5 := by
  rw [q10_run_constQual_eval]
  norm_num

/-- C8 amended: once the first q10 handover has occurred at step `h`, the loop
breaks at the end of the first step whose index exceeds `h + 5`: no step with
index above `h + 6` is ever executed, and step `h + 6` itself is executed
whenever `h + 6 ≤ 20` (sink failures absent). -/
theorem q10_settle_window_is_six :
    ∀ qual : ℕ → ℚ × ℚ, ∀ r ∈ q10_run (fun _ => false) qual, r.post.occurred = true →
      (∀ r2 ∈ q10_run (fun _ => false) qual, r2.step ≤ r.post.hstep + 6) ∧
      (r.post.hstep + 6 ≤ 20 →
        ∃ r2 ∈ q10_run (fun _ => false) qual, r2.step = r.post.hstep + 6) := by
  intro qual r hr hocc
  obtain ⟨h1, h2, h3⟩ := q10_loopAux_pre qual 20 1 r hr hocc
  exact ⟨h2, fun hle => h3 (by omega)⟩

/-- Witness for the amended C8: in the run where the handover occurs at step 1,
the record of step 7 = 1 + 6 respects the bound. -/
theorem q10_settle_window_is_six_witness :
    (⟨7, 40, 7, ⟨2, true, 1⟩⟩ : Q10Rec).step ≤ 1 + 6 :=
  (q10_settle_window_is_six q10_constQual ⟨1, 10, 1, ⟨2, true, 1⟩⟩
    (by rw [q10_run_constQual_eval]; simp) rfl).1 ⟨7, 40, 7, ⟨2, true, 1⟩⟩
    (by rw [q10_run_constQual_eval]; simp)

/-- C10: the q7/q8 handover decision is purely positional — the event log of a
run contains at most one event, every event is the AP1-to-AP2 handover, and the
event for step `s` is present exactly when `position > 0.5` at `s` and the
default route at `s` still goes via AP1 (the computed bandwidth, delay and loss
take no part in the condition). -/
theorem q78_handover_positional :
    ∀ duration : ℕ, 0 < duration →
      (q78_events duration).length ≤ 1 ∧
      (∀ e ∈ q78_events duration, e.2.1 = 1 ∧ e.2.2 = 2) ∧
      (∀ s, s ≤ duration →
        ((s, 1, 2) ∈ q78_events duration ↔
          (q78_position duration s > 1 / 2 ∧ q78_routeBefore duration s = 1))) := by
  intro d hd
  refine ⟨?_, ?_, ?_⟩
  · rcases q78_loopAux_shape d (d + 1) 0 1 with h | ⟨s, h⟩ <;> simp [q78_events, h]
  · intro e he
    rw [q78_events] at he
    rcases q78_loopAux_shape d (d + 1) 0 1 with h | ⟨s, h⟩ <;> rw [h] at he
    · simp at he
    · rcases List.mem_singleton.mp he with h2
      rw [h2]
      exact ⟨rfl, rfl⟩
  · intro s hs
    rw [q78_events_mem]
    simp only [q78_cond, Bool.and_eq_true, decide_eq_true_eq]
    constructor
    · rintro ⟨-, h1, h2⟩; exact ⟨h1, h2⟩
    · rintro ⟨h1, h2⟩; exact ⟨hs, h1, h2⟩

/-- Witness for C10: at the scripts' configured duration 20 and the midpoint
step 11, the event-membership characterisation holds. -/
theorem q78_handover_positional_witness :
    (11, 1, 2) ∈ q78_events 20 ↔
      (q78_position 20 11 > 1 / 2 ∧ q78_routeBefore 20 11 = 1) :=
  (q78_handover_positional 20 (by norm_num)).2.2 11 (by norm_num)

end MininetEval
